import Mathlib

/-!
Verification of the coverage delta engine of `go-coverage-report`.

The Go sources are embedded shallowly:
* machine integers (`int`, `int64`) become `Int`;
* Go maps (`map[string]*T`, `map[int]bool`) become association lists
  (`List (String × T)`) and line-number lists (`List Int`) with set semantics —
  the Go code only ever stores `true` in its `map[int]bool` values;
* file-system access (source reading, AST parsing) becomes an explicit
  environment `Env` mapping a coverage file name to the optionally available
  data; `none` covers every failure of the Go multi-path resolution chain;
* the float64 arithmetic of the proportional estimate
  (`int64(float64(numStmt) * proportion)`) is embedded as exact integer
  arithmetic: for the values reachable in the code (non-negative counts,
  positive spans) the truncation of the exact product is integer division.

String predicates (`strings.HasPrefix` …) are modelled on the underlying
character lists so that every definition evaluates inside the kernel.
-/

namespace GoCov

/-- Models Go `strings.HasPrefix s p`. -/
def hasPrefixGo (s p : String) : Bool := p.toList.isPrefixOf s.toList

/-- Models Go `strings.HasSuffix s p` (used for the path-suffix matching). -/
def hasSuffixGo (s p : String) : Bool := p.toList.isSuffixOf s.toList

/-- Drops the first `n` characters; with a `hasPrefixGo` guard this models
Go `strings.TrimPrefix` for a known prefix length. -/
def dropGo (s : String) (n : Nat) : String := String.mk (s.toList.drop n)

/-- Character-level splitter underlying `splitGo`. -/
def splitCharAux (sep : Char) : List Char → List (List Char)
  | [] => [[]]
  | c :: rest =>
    let r := splitCharAux sep rest
    if c = sep then [] :: r
    else
      match r with
      | h :: t => (c :: h) :: t
      | [] => [[c]]

/-- Models Go `strings.Split s (string sep)` for a one-character separator. -/
def splitGo (s : String) (sep : Char) : List String :=
  (splitCharAux sep s.toList).map String.mk

/-- One coverage block of a profile (`ProfileBlock` in the Go sources):
a source range, its statement count and its execution count. -/
structure ProfileBlock where
  startLine : Int
  startCol : Int
  endLine : Int
  endCol : Int
  numStmt : Int
  count : Int
deriving DecidableEq

/-- Per-file coverage profile (`Profile`): blocks plus aggregate counts. -/
structure Profile where
  fileName : String
  blocks : List ProfileBlock
  totalStmt : Int
  coveredStmt : Int
  missedStmt : Int
deriving DecidableEq

/-- A whole coverage run (`Coverage`): file-keyed profiles plus aggregates.
The Go `map[string]*Profile` becomes an association list. -/
structure Coverage where
  files : List (String × Profile)
  totalStmt : Int
  coveredStmt : Int
  missedStmt : Int
deriving DecidableEq

/-- Go map access `c.Files[fileName]` (`nil` for a missing key). -/
def Coverage.lookup (c : Coverage) (name : String) : Option Profile :=
  c.files.lookup name

/-- The added/modified line sets of one file of the change-set (`FileDiff`).
The Go `map[int]bool` sets become lists of line numbers. -/
structure FileDiff where
  fileName : String
  addedLines : List Int
  modifiedLines : List Int
deriving DecidableEq

/-- Go `fd.AddedLines[n]` (missing key reads as `false`). -/
def FileDiff.isAdded (fd : FileDiff) (n : Int) : Bool := fd.addedLines.contains n

/-- Go `fd.ModifiedLines[n]`. -/
def FileDiff.isModified (fd : FileDiff) (n : Int) : Bool := fd.modifiedLines.contains n

/-- The test `fd.AddedLines[n] || fd.ModifiedLines[n]` used throughout. -/
def FileDiff.isChanged (fd : FileDiff) (n : Int) : Bool := fd.isAdded n || fd.isModified n

/-- Change-set for all files (`DiffInfo`); the Go `map[string]*FileDiff`
becomes an association list. -/
structure DiffInfo where
  files : List (String × FileDiff)
deriving DecidableEq

/-- `(d *DiffInfo) findFileDiff` (diff.go lines 143–170): nil receiver handled,
then exact key match, then a stored key that is a suffix of the query, then
the query being a suffix of a stored key. -/
def findFileDiff (d : Option DiffInfo) (fileName : String) : Option FileDiff :=
  match d with
  | none => none
  | some info =>
    match info.files.lookup fileName with
    | some fd => some fd
    | none =>
      match info.files.find? (fun kv => hasSuffixGo fileName kv.1) with
      | some kv => some kv.2
      | none =>
        match info.files.find? (fun kv => hasSuffixGo kv.1 fileName) with
        | some kv => some kv.2
        | none => none

/-- The Go loop `for line := startLine; line <= endLine; line++` as the list
of visited line numbers. -/
def lineRange (s e : Int) : List Int :=
  (List.range (e + 1 - s).toNat).map (fun i : Nat => s + (i : Int))

/-- `(d *DiffInfo) IsLineAdded` (diff.go lines 173–180). -/
def isLineAdded (d : Option DiffInfo) (fileName : String) (lineNum : Int) : Bool :=
  match findFileDiff d fileName with
  | none => false
  | some fd => fd.isAdded lineNum || fd.isModified lineNum

/-- `(d *DiffInfo) IsLineInRange` (diff.go lines 183–196). -/
def isLineInRange (d : Option DiffInfo) (fileName : String) (startLine endLine : Int) : Bool :=
  match findFileDiff d fileName with
  | none => false
  | some fd => (lineRange startLine endLine).any fd.isChanged

/-! ## Unified diff parsing (diff.go lines 71–138) -/

/-- Digit accumulator of `goAtoi`. -/
def digitsValAux : List Char → Nat → Option Nat
  | [], acc => some acc
  | c :: rest, acc =>
    if c.isDigit then digitsValAux rest (acc * 10 + (c.toNat - 48)) else none

/-- Value of a non-empty all-digit character list. -/
def digitsVal (cs : List Char) : Option Nat :=
  match cs with
  | [] => none
  | _ => digitsValAux cs 0

/-- Models Go `strconv.Atoi`: an optional sign followed by at least one digit
and nothing else.  (Overflow of the 64-bit range is not modelled; hunk starts
never reach it.) -/
def goAtoi (s : String) : Option Int :=
  match s.toList with
  | '+' :: rest => (digitsVal rest).map (fun n => (n : Int))
  | '-' :: rest => (digitsVal rest).map (fun n => -(n : Int))
  | cs => (digitsVal cs).map (fun n => (n : Int))

/-- The new-file hunk start extracted from a `@@ -a,b +c,d @@` header
(diff.go lines 106–119): split on spaces, take the third field, strip a
leading `+`, split on commas, `Atoi` the first piece.  `none` means the
header is malformed and the running counter is left untouched. -/
def hunkNewStart (line : String) : Option Int :=
  match (splitGo line ' ').drop 2 with
  | [] => none
  | p2 :: _ =>
    let newPart := if hasPrefixGo p2 "+" then dropGo p2 1 else p2
    match splitGo newPart ',' with
    | [] => none
    | s :: _ => goAtoi s

/-- Scanner state of `ParseUnifiedDiff`: the accumulated per-file diffs, the
key of the `FileDiff` the `currentFile` pointer designates, and the running
line counter. -/
structure ParseState where
  files : List (String × FileDiff)
  currentFile : Option String
  currentLine : Int
deriving DecidableEq

/-- Go map store `m[k] = v`: replace the entry or append a new one. -/
def setEntry : List (String × FileDiff) → String → FileDiff → List (String × FileDiff)
  | [], k, v => [(k, v)]
  | (k', v') :: rest, k, v =>
    if k' = k then (k, v) :: rest else (k', v') :: setEntry rest k v

/-- Set insertion into a line set (`m[n] = true` on a `map[int]bool`). -/
def insertLine (l : List Int) (n : Int) : List Int :=
  if l.contains n then l else l ++ [n]

/-- `currentFile.AddedLines[currentLine] = true`: the marked `FileDiff` lives
in the map, so the entry under the current key is updated in place. -/
def markAdded : List (String × FileDiff) → String → Int → List (String × FileDiff)
  | [], _, _ => []
  | (k', fd) :: rest, k, n =>
    if k' = k then
      (k', { fd with addedLines := insertLine fd.addedLines n }) :: rest
    else
      (k', fd) :: markAdded rest k n

/-- One iteration of the `ParseUnifiedDiff` scanner loop (diff.go lines
90–135): file header, hunk header, added line, context line, everything else
(`-` lines included) ignored. -/
def parseDiffLine (st : ParseState) (line : String) : ParseState :=
  if hasPrefixGo line "+++ b/" then
    let fileName := dropGo line 6
    { st with
      files := setEntry st.files fileName ⟨fileName, [], []⟩
      currentFile := some fileName }
  else if hasPrefixGo line "@@" then
    match hunkNewStart line with
    | some start => { st with currentLine := start }
    | none => st
  else
    match st.currentFile with
    | none => st
    | some key =>
      if hasPrefixGo line "+" && !hasPrefixGo line "+++" then
        { st with
          files := markAdded st.files key st.currentLine
          currentLine := st.currentLine + 1 }
      else if hasPrefixGo line " " then
        { st with currentLine := st.currentLine + 1 }
      else st

/-- `ParseUnifiedDiff` on the scanned lines of the input (the file-opening
I/O and `scanner.Err()` propagation stay outside the model). -/
def parseUnifiedDiff (lines : List String) : DiffInfo :=
  ⟨(lines.foldl parseDiffLine ⟨[], none, 0⟩).files⟩

/-! ## Delta calculator (part_001 lines 111–150, 371–460, 770–834) -/

/-- File-system environment of one report computation.  `statementLines f`
is the statement-start line set the AST mapper produces for coverage file
name `f` (`none` whenever the Go chain fails: `astMapper == nil`, no
candidate path of `resolveFilePath` opens, or the file does not parse).
`sourceLines f` is the content of `f` as produced by `readSourceLines`
(`none` when no candidate path opens). -/
structure Env where
  statementLines : String → Option (List Int)
  sourceLines : String → Option (List (Int × String))

/-- `countStatementsInBlockUsingAST` (part_001 lines 770–815): count the
lines of the block range that are both changed and statement starts;
`none` stands for the Go sentinel `-1` (AST unavailable, or zero
qualifying lines).  The covered flag returned by the Go function is
recomputed by the caller from `block.Count`, so only the count is kept. -/
def countStatementsInBlockUsingAST (env : Env) (fileName : String)
    (b : ProfileBlock) (fd : FileDiff) : Option Nat :=
  match env.statementLines fileName with
  | none => none
  | some stmts =>
    let count := (lineRange b.startLine b.endLine).countP
      (fun line => fd.isChanged line && stmts.contains line)
    if count = 0 then none else some count

/-- Contribution of one block of the new profile inside the per-block loop
of `calculateNewCodeCoverageFromDiff` (part_001 lines 405–446), as the pair
(added to `totalNew`, added to `coveredNew`).  The proportional branch
models `int64(float64(block.NumStmt) * proportion)` by integer division:
for the reachable values (`numStmt ≥ 0`, `changedLines ≥ 1`, span ≥ 1) the
truncation of the exact product is exactly `numStmt * changed / span`. -/
def blockNewCoverage (env : Env) (fileName : String) (fd : FileDiff)
    (b : ProfileBlock) : Int × Int :=
  match countStatementsInBlockUsingAST env fileName b fd with
  | some stmtCount => ((stmtCount : Int), if 0 < b.count then (stmtCount : Int) else 0)
  | none =>
    let changedLinesInBlock : Nat := (lineRange b.startLine b.endLine).countP fd.isChanged
    let totalLinesInBlock : Int := b.endLine - b.startLine + 1
    if 0 < changedLinesInBlock then
      let estimatedStmts : Int := b.numStmt * (changedLinesInBlock : Int) / totalLinesInBlock
      let adjusted : Int :=
        if estimatedStmts = 0 ∧ 0 < changedLinesInBlock then 1 else estimatedStmts
      (adjusted, if 0 < b.count then adjusted else 0)
    else (0, 0)

/-- The whole per-block loop over the new profile's blocks (case 4 of the
spec's §4.5), accumulating into `(totalNew, coveredNew)`. -/
def blockwiseNewCoverage (env : Env) (fileName : String) (fd : FileDiff)
    (blocks : List ProfileBlock) : Int × Int :=
  blocks.foldl
    (fun acc b =>
      (acc.1 + (blockNewCoverage env fileName fd b).1,
       acc.2 + (blockNewCoverage env fileName fd b).2))
    (0, 0)

/-- Body of the per-file loop of `calculateNewCodeCoverageFromDiff`
(part_001 lines 379–447): skip a file missing from the new profile, count a
file missing from the old profile in full, fall back to the full new
profile when no diff entry is found or the entry's added-line set is empty,
and otherwise evaluate block by block. -/
def fileNewCoverageFromDiff (env : Env) (diffInfo : Option DiffInfo)
    (old new : Coverage) (fileName : String) : Int × Int :=
  match new.lookup fileName with
  | none => (0, 0)
  | some newProfile =>
    match old.lookup fileName with
    | none => (newProfile.totalStmt, newProfile.coveredStmt)
    | some _ =>
      match findFileDiff diffInfo fileName with
      | none => (newProfile.totalStmt, newProfile.coveredStmt)
      | some fd =>
        if fd.addedLines.isEmpty then (newProfile.totalStmt, newProfile.coveredStmt)
        else blockwiseNewCoverage env fileName fd newProfile.blocks

/-- `calculateNewCodeCoverageFromDiff` (part_001 lines 378–450): the sum of
the per-file contributions over the changed-file list. -/
def calculateNewCodeCoverageFromDiff (env : Env) (diffInfo : Option DiffInfo)
    (old new : Coverage) (changedFiles : List String) : Int × Int :=
  changedFiles.foldl
    (fun acc f =>
      (acc.1 + (fileNewCoverageFromDiff env diffInfo old new f).1,
       acc.2 + (fileNewCoverageFromDiff env diffInfo old new f).2))
    (0, 0)

/-- The `fmt.Sprintf("%d:%d-%d:%d", …)` block key of `makeBlockMap`
(part_001 lines 453–460). -/
def blockKey (b : ProfileBlock) : String :=
  toString b.startLine ++ ":" ++ toString b.startCol ++ "-"
    ++ toString b.endLine ++ ":" ++ toString b.endCol

/-- Body of the per-file loop of the legacy block-identity comparison
(part_001 lines 118–147): any new-profile block whose range key is absent
from the old profile's block map counts in full. -/
def fileNewCoverageLegacy (old new : Coverage) (fileName : String) : Int × Int :=
  match new.lookup fileName with
  | none => (0, 0)
  | some newProfile =>
    match old.lookup fileName with
    | none => (newProfile.totalStmt, newProfile.coveredStmt)
    | some oldProfile =>
      let oldKeys := oldProfile.blocks.map blockKey
      newProfile.blocks.foldl
        (fun acc b =>
          if oldKeys.contains (blockKey b) then acc
          else (acc.1 + b.numStmt, acc.2 + if 0 < b.count then b.numStmt else 0))
        (0, 0)

/-- `calculateNewCodeCoverage` (part_001 lines 111–150): dispatch to the
change-set-aware path when diff information is present, otherwise run the
legacy block-identity comparison. -/
def calculateNewCodeCoverage (env : Env) (diffInfo : Option DiffInfo)
    (old new : Coverage) (changedFiles : List String) : Int × Int :=
  match diffInfo with
  | some _ => calculateNewCodeCoverageFromDiff env diffInfo old new changedFiles
  | none =>
    changedFiles.foldl
      (fun acc f =>
        (acc.1 + (fileNewCoverageLegacy old new f).1,
         acc.2 + (fileNewCoverageLegacy old new f).2))
      (0, 0)

/-! ## Severity banding and number formatting (report helpers) -/

/-- Go's float-to-int conversion `int(x)` (truncation toward zero), on the
exact rational value. -/
def ratTrunc (q : ℚ) : Int := if 0 ≤ q then ⌊q⌋ else ⌈q⌉

/-- Two-digit zero padding of the fractional part. -/
def pad2 (n : Nat) : String := if n < 10 then "0" ++ toString n else toString n

/-- Model of `fmt.Sprintf("%.2f", q)` on the exact rational value: the value
rounded to hundredths, rendered with two decimals. -/
def fmt2 (q : ℚ) : String :=
  let c : Int := round (q * 100)
  (if c < 0 then "-" else "") ++ toString (c.natAbs / 100) ++ "." ++ pad2 (c.natAbs % 100)

/-- Model of `fmt.Sprintf("%+.2f", q)`: as `fmt2` with an explicit sign
(taken from the sign of the exact value, as Go does). -/
def fmtSigned2 (q : ℚ) : String :=
  let c : Int := round (q * 100)
  (if q < 0 then "-" else "+") ++ toString (c.natAbs / 100) ++ "." ++ pad2 (c.natAbs % 100)

/-- Go `strings.Repeat s n`. -/
def repeatStr (s : String) (n : Nat) : String := String.join (List.replicate n s)

/-- `emojiScore` (part_001 lines 858–885 and report.go lines 371–398): the
severity marker and the formatted delta for a pair of percentages.  The
final `("", "")` arm is Go's zero-value result of a switch with no matching
case, unreachable by trichotomy. -/
def emojiScore (newPercent oldPercent : ℚ) : String × String :=
  let diff := newPercent - oldPercent
  if diff < -50 then (repeatStr ":skull: " 5, "**" ++ fmtSigned2 diff ++ "%**")
  else if diff < -10 then
    (repeatStr ":skull: " (ratTrunc (-diff / 10)).toNat, "**" ++ fmtSigned2 diff ++ "%**")
  else if diff < 0 then (":thumbsdown:", "**" ++ fmtSigned2 diff ++ "%**")
  else if diff = 0 then ("", "ø")
  else if 20 < diff then (":star2:", "**" ++ fmtSigned2 diff ++ "%**")
  else if 10 < diff then (":tada:", "**" ++ fmtSigned2 diff ++ "%**")
  else if 0 < diff then (":thumbsup:", "**" ++ fmtSigned2 diff ++ "%**")
  else ("", "")

/-! ## Report rendering (part_001 lines 13–21, 462–759)

`Coverage`'s behaviour (`Percent`, `ByPackage`, the nil-safe getters) lives
in a coverage.go file that is not part of the given sources; those helpers
are modelled from the spec, as marked below. -/

/-- Modelled from the spec: `Coverage.Percent` of the absent coverage.go —
§4.1: `covered/total*100`, defined as `0` when `total == 0`. -/
def Coverage.percent (c : Coverage) : ℚ :=
  if c.totalStmt = 0 then 0 else (c.coveredStmt : ℚ) / (c.totalStmt : ℚ) * 100

/-- Modelled from the spec: `Profile.CoveragePercent` of the absent
coverage.go — §4.1 per-file percentage with the zero-total guard. -/
def Profile.coveragePercent (p : Profile) : ℚ :=
  if p.totalStmt = 0 then 0 else (p.coveredStmt : ℚ) / (p.totalStmt : ℚ) * 100

/-- Modelled from the spec: the nil-safe `GetTotal` getter of the absent
coverage.go, called on possibly-nil profiles by the per-file table. -/
def profTotal : Option Profile → Int
  | none => 0
  | some p => p.totalStmt

/-- Modelled from the spec: the nil-safe `GetCovered` getter of the absent
coverage.go. -/
def profCovered : Option Profile → Int
  | none => 0
  | some p => p.coveredStmt

/-- Modelled from the spec: the nil-safe `GetMissed` getter of the absent
coverage.go. -/
def profMissed : Option Profile → Int
  | none => 0
  | some p => p.missedStmt

/-- Modelled from the spec: `filepath.Dir` as used to derive a file's
package (§2, §3) — the path up to the last separator, `.` when none. -/
def dirOf (p : String) : String :=
  match (p.toList.reverse.dropWhile (fun c => c ≠ '/')) with
  | [] => "."
  | _ :: [] => "/"
  | _ :: rest => String.mk rest.reverse

/-- Modelled from the spec: the percentage that `ByPackage` of the absent
coverage.go yields for one package — per-file profiles grouped by
directory with aggregate counts (§2); a package absent from the grouping
reads as `0` in the renderer. -/
def byPackagePercent (c : Coverage) (pkg : String) : ℚ :=
  let inPkg := c.files.filter (fun kv => dirOf kv.1 == pkg)
  if inPkg.isEmpty then 0
  else
    let tot := (inPkg.map (fun kv => kv.2.totalStmt)).sum
    let cov := (inPkg.map (fun kv => kv.2.coveredStmt)).sum
    if tot = 0 then 0 else (cov : ℚ) / (tot : ℚ) * 100

/-- The `Report` struct (part_001 lines 13–21).  The AST mapper and its
cache are replaced by the explicit `Env`; the minimum-coverage threshold is
the exact value of the Go float64. -/
structure Report where
  old : Coverage
  new : Coverage
  changedFiles : List String
  changedPackages : List String
  minCoverage : ℚ
  diffInfo : Option DiffInfo

/-- `OverallCoverageDelta` (part_001 lines 53–55). -/
def overallCoverageDelta (r : Report) : ℚ := r.new.percent - r.old.percent

/-- `Title` (part_001 lines 462–478). -/
def title (r : Report) : String :=
  let delta := overallCoverageDelta r
  let newCov := fmt2 r.new.percent ++ "%"
  let deltaStr := (emojiScore r.new.percent r.old.percent).2
  if delta = 0 then "### Coverage Report - " ++ newCov ++ " (no change)"
  else if 0 < delta then
    "### Coverage Report - " ++ newCov ++ " (" ++ deltaStr ++ ") - **increase**"
  else "### Coverage Report - " ++ newCov ++ " (" ++ deltaStr ++ ") - **decrease**"

/-- `PRCoverageInfo` (part_001 lines 71–98): formatted new-code coverage,
its simplified emoji, and the `(totalNew, coveredNew)` pair. -/
def prCoverageInfo (env : Env) (r : Report) : String × String × Int × Int :=
  let tc := calculateNewCodeCoverage env r.diffInfo r.old r.new r.changedFiles
  let prPercent : ℚ := if 0 < tc.1 then (tc.2 : ℚ) / (tc.1 : ℚ) * 100 else 0
  let emoji :=
    if 90 ≤ prPercent then ":star2:"
    else if 80 ≤ prPercent then ":tada:"
    else if 70 ≤ prPercent then ":thumbsup:"
    else if 50 ≤ prPercent then ":neutral_face:"
    else if 30 ≤ prPercent then ":thumbsdown:"
    else ":skull:"
  (fmt2 prPercent ++ "%", emoji, tc.1, tc.2)

/-- `fmt.Fprintln`: the written text plus a newline. -/
def lnStr (s : String) : String := s ++ "\n"

/-- The ` (+%d)` / ` (%d)` suffixes of the statements table (part_001 lines
529–541). -/
def intDeltaSfx (change : Int) : String :=
  if 0 < change then " (+" ++ toString change ++ ")"
  else if change < 0 then " (" ++ toString change ++ ")"
  else ""

/-- The head of `addOverallCoverageSummary` (part_001 lines 492–508), up to
and including the blank line before the threshold check. -/
def summaryHead (env : Env) (r : Report) : String :=
  let oldCov := fmt2 r.old.percent ++ "%"
  let newCov := fmt2 r.new.percent ++ "%"
  let es := emojiScore r.new.percent r.old.percent
  let pr := prCoverageInfo env r
  lnStr "" ++ lnStr "#### Overall Coverage Summary" ++ lnStr "" ++
  lnStr "| Metric | Old Coverage | New Coverage | Change | :robot: |" ++
  lnStr "|--------|-------------|-------------|--------|---------|" ++
  lnStr ("| **Total** | " ++ oldCov ++ " | " ++ newCov ++ " | " ++ es.2 ++ " | " ++ es.1 ++ " |") ++
  (if 0 < pr.2.2.1 then
    lnStr ("| **New Code** | N/A | " ++ pr.1 ++ " | " ++ toString pr.2.2.2 ++ "/"
      ++ toString pr.2.2.1 ++ " statements | " ++ pr.2.1 ++ " |")
   else "") ++
  lnStr ""

/-- The threshold-warning block of `addOverallCoverageSummary` (part_001
lines 510–518), with the nested conditionals exactly as written. -/
def summaryWarning (env : Env) (r : Report) : String :=
  let tc := calculateNewCodeCoverage env r.diffInfo r.old r.new r.changedFiles
  if 0 < r.minCoverage ∧ 0 < tc.1 then
    let newCodeCoverage : ℚ := (tc.2 : ℚ) / (tc.1 : ℚ) * 100
    if newCodeCoverage < r.minCoverage then
      lnStr "> [!WARNING]" ++
      lnStr ("> **Coverage threshold not met:** New code coverage is **" ++ fmt2 newCodeCoverage
        ++ "%**, which is below the required threshold of **" ++ fmt2 r.minCoverage ++ "%**.") ++
      lnStr ""
    else ""
  else ""

/-- The statements table closing `addOverallCoverageSummary` (part_001
lines 520–548). -/
def statementsTable (r : Report) : String :=
  let stmtChange := r.new.totalStmt - r.old.totalStmt
  let coveredChange := r.new.coveredStmt - r.old.coveredStmt
  lnStr "| **Statements** | Total | Covered | Missed |" ++
  lnStr "|---|---|---|---|" ++
  lnStr ("| **Old** | " ++ toString r.old.totalStmt ++ " | " ++ toString r.old.coveredStmt
    ++ " | " ++ toString r.old.missedStmt ++ " |") ++
  lnStr ("| **New** | " ++ toString r.new.totalStmt ++ intDeltaSfx stmtChange ++ " | "
    ++ toString r.new.coveredStmt ++ intDeltaSfx coveredChange ++ " | "
    ++ toString r.new.missedStmt ++ " |") ++
  lnStr ""

/-- `addOverallCoverageSummary` (part_001 lines 492–548) as the three
segments written in sequence. -/
def overallCoverageSummary (env : Env) (r : Report) : String :=
  summaryHead env r ++ summaryWarning env r ++ statementsTable r

/-- `addPackageDetails` (part_001 lines 636–672). -/
def packageDetails (r : Report) : String :=
  lnStr "---" ++ lnStr "" ++ lnStr "<details>" ++ lnStr "" ++
  lnStr "<summary>Impacted Packages</summary>" ++ lnStr "" ++
  lnStr "| Impacted Packages | Coverage Δ | :robot: |" ++
  lnStr "|-------------------|------------|---------|" ++
  String.join (r.changedPackages.map (fun pkg =>
    let oldPercent := byPackagePercent r.old pkg
    let newPercent := byPackagePercent r.new pkg
    let es := emojiScore newPercent oldPercent
    lnStr ("| " ++ pkg ++ " | " ++ fmt2 newPercent ++ "% (" ++ es.2 ++ ") | " ++ es.1 ++ " |"))) ++
  lnStr "" ++ lnStr "</details>" ++ lnStr ""

/-- The `valueWithDelta` closure of `addCodeFileDetails` (part_001 lines
720–730). -/
def valueWithDelta (oldVal newVal : Int) : String :=
  let diff := oldVal - newVal
  if diff < 0 then toString newVal ++ " (+" ++ toString (-diff) ++ ")"
  else if 0 < diff then toString newVal ++ " (-" ++ toString diff ++ ")"
  else toString newVal

/-- One row of the changed-files table (part_001 lines 706–741). -/
def codeFileRow (r : Report) (name : String) : String :=
  let oldProfile := r.old.lookup name
  let newProfile := r.new.lookup name
  let oldPercent : ℚ := match oldProfile with | some p => p.coveragePercent | none => 0
  let newPercent : ℚ := match newProfile with | some p => p.coveragePercent | none => 0
  let es := emojiScore newPercent oldPercent
  lnStr ("| " ++ name ++ " | " ++ fmt2 newPercent ++ "% (" ++ es.2 ++ ") | "
    ++ valueWithDelta (profTotal oldProfile) (profTotal newProfile) ++ " | "
    ++ valueWithDelta (profCovered oldProfile) (profCovered newProfile) ++ " | "
    ++ valueWithDelta (profMissed oldProfile) (profMissed newProfile) ++ " | " ++ es.1 ++ " |")

/-- `addCodeFileDetails` (part_001 lines 700–748). -/
def codeFileDetails (r : Report) (files : List String) : String :=
  lnStr "### Changed files (no unit tests)" ++ lnStr "" ++
  lnStr "| Changed File | Coverage Δ | Total | Covered | Missed | :robot: |" ++
  lnStr "|--------------|------------|-------|---------|--------|---------|" ++
  String.join (files.map (codeFileRow r)) ++
  lnStr "" ++
  lnStr ("_Please note that the \x22Total\x22, \x22Covered\x22, and \x22Missed\x22 counts "
    ++ "above refer to ***code statements*** instead of lines of code. The value in brackets "
    ++ "refers to the test coverage of that file in the old version of the code._") ++
  lnStr ""

/-- `addTestFileDetails` (part_001 lines 750–759). -/
def testFileDetails (files : List String) : String :=
  lnStr "### Changed unit test files" ++ lnStr "" ++
  String.join (files.map (fun name => lnStr ("- " ++ name))) ++ lnStr ""

/-- `addFileDetails` (part_001 lines 674–698); note the final
`fmt.Fprint` without a newline. -/
def fileDetails (r : Report) : String :=
  let codeFiles := r.changedFiles.filter (fun f => !hasSuffixGo f "_test.go")
  let unitTestFiles := r.changedFiles.filter (fun f => hasSuffixGo f "_test.go")
  lnStr "<details>" ++ lnStr "" ++ lnStr "<summary>Coverage by file</summary>" ++ lnStr "" ++
  (if codeFiles.isEmpty then "" else codeFileDetails r codeFiles) ++
  (if unitTestFiles.isEmpty then "" else testFileDetails unitTestFiles) ++
  "</details>"

/-- `NewCodeBlock` (part_001 lines 101–108). -/
structure NewCodeBlock where
  fileName : String
  startLine : Int
  endLine : Int
  numStmt : Int
  covered : Bool
  lines : List String

/-- Per-file body of `getNewCodeBlocksFromComparison` (part_001 lines
264–309). -/
def comparisonFileBlocks (old new : Coverage) (fileName : String) : List NewCodeBlock :=
  match new.lookup fileName with
  | none => []
  | some newProfile =>
    match old.lookup fileName with
    | none =>
      newProfile.blocks.map (fun b =>
        ⟨fileName, b.startLine, b.endLine, b.numStmt, decide (0 < b.count), []⟩)
    | some oldProfile =>
      let oldKeys := oldProfile.blocks.map blockKey
      (newProfile.blocks.filter (fun b => !oldKeys.contains (blockKey b))).map (fun b =>
        ⟨fileName, b.startLine, b.endLine, b.numStmt, decide (0 < b.count), []⟩)

/-- Per-file body of `getNewCodeBlocksFromDiff` (part_001 lines 312–369). -/
def diffFileBlocks (di : Option DiffInfo) (old new : Coverage) (fileName : String) :
    List NewCodeBlock :=
  match new.lookup fileName with
  | none => []
  | some newProfile =>
    let allNew := newProfile.blocks.map (fun b =>
      (⟨fileName, b.startLine, b.endLine, b.numStmt, decide (0 < b.count), []⟩ : NewCodeBlock))
    match old.lookup fileName with
    | none => allNew
    | some _ =>
      match findFileDiff di fileName with
      | none => allNew
      | some fd =>
        if fd.addedLines.isEmpty then allNew
        else
          (newProfile.blocks.filter
            (fun b => isLineInRange di fileName b.startLine b.endLine)).map (fun b =>
              ⟨fileName, b.startLine, b.endLine, b.numStmt, decide (0 < b.count), []⟩)

/-- The source-line population loop of `getNewCodeBlocks` (part_001 lines
219–258): lines of the block range, kept only when the change-set marks
them changed (when diff information and a matching entry exist), looked up
in the file's source text. -/
def populateLines (env : Env) (di : Option DiffInfo) (b : NewCodeBlock) : NewCodeBlock :=
  match env.sourceLines b.fileName with
  | none => b
  | some src =>
    { b with
      lines := (lineRange b.startLine b.endLine).filterMap (fun lineNum =>
        let keep : Bool :=
          match di with
          | none => true
          | some _ =>
            match findFileDiff di b.fileName with
            | none => true
            | some fd => fd.isAdded lineNum || fd.isModified lineNum
        if keep then src.lookup lineNum else none) }

/-- `getNewCodeBlocks` (part_001 lines 207–261). -/
def getNewCodeBlocks (env : Env) (r : Report) : List NewCodeBlock :=
  let blocks :=
    match r.diffInfo with
    | some _ => (r.changedFiles.map (diffFileBlocks r.diffInfo r.old r.new)).flatten
    | none => (r.changedFiles.map (comparisonFileBlocks r.old r.new)).flatten
  blocks.map (populateLines env r.diffInfo)

/-- Character-code comparison underlying `sortStrings`. -/
def charListLe : List Char → List Char → Bool
  | [], _ => true
  | _ :: _, [] => false
  | a :: as, b :: bs =>
    if a.toNat < b.toNat then true
    else if b.toNat < a.toNat then false
    else charListLe as bs

/-- Lexicographic order on strings, modelling Go's `sort.Strings` byte
order for the ASCII paths at hand. -/
def strLe (a b : String) : Bool := charListLe a.toList b.toList

/-- Insertion step of `sortStrings`. -/
def insertSorted (s : String) : List String → List String
  | [] => [s]
  | x :: xs => if strLe s x then s :: x :: xs else x :: insertSorted s xs

/-- Models `sort.Strings`. -/
def sortStrings (l : List String) : List String := l.foldr insertSorted []

/-- Rendering of one new-code block inside the per-file fence (part_001
lines 595–626). -/
def renderBlock (b : NewCodeBlock) : String :=
  if !b.lines.isEmpty then
    let pfx := if b.covered then "+" else "-"
    String.join (b.lines.map (fun l => lnStr (pfx ++ " " ++ l)))
  else
    let rangeStr :=
      if b.startLine = b.endLine then "Line " ++ toString b.startLine
      else "Lines " ++ toString b.startLine ++ "-" ++ toString b.endLine
    let stmtText := if b.numStmt ≠ 1 then "statements" else "statement"
    if b.covered then
      lnStr ("+ " ++ rangeStr ++ " (" ++ toString b.numStmt ++ " " ++ stmtText ++ ") - COVERED ✓")
    else
      lnStr ("- " ++ rangeStr ++ " (" ++ toString b.numStmt ++ " " ++ stmtText ++ ") - NOT COVERED ✗")

/-- `addNewCodeDetails` (part_001 lines 562–634). -/
def newCodeDetails (env : Env) (r : Report) : String :=
  let blocks := getNewCodeBlocks env r
  if blocks.isEmpty then ""
  else
    let sortedFiles := sortStrings ((blocks.map (fun b => b.fileName)).dedup)
    lnStr "<details>" ++ lnStr "" ++ lnStr "<summary>New Code Coverage Details</summary>" ++
    lnStr "" ++
    lnStr "This section shows the coverage status of each new code block added in this PR." ++
    lnStr "" ++
    String.join (sortedFiles.map (fun fileName =>
      let fblocks := blocks.filter (fun b => b.fileName == fileName)
      lnStr ("#### " ++ fileName) ++ lnStr "" ++ lnStr "```diff" ++
      String.join (fblocks.map renderBlock) ++
      lnStr "```" ++ lnStr "")) ++
    lnStr "</details>" ++ lnStr ""

/-- `addNewCodeDetailsSection` (part_001 lines 551–559). -/
def newCodeDetailsSection (env : Env) (r : Report) : String :=
  let tc := calculateNewCodeCoverage env r.diffInfo r.old r.new r.changedFiles
  if tc.1 = 0 then "" else newCodeDetails env r

/-- `Markdown` (part_001 lines 480–490). -/
def markdown (env : Env) (r : Report) : String :=
  lnStr (title r) ++ overallCoverageSummary env r ++ packageDetails r ++
  fileDetails r ++ newCodeDetailsSection env r

/-- Everything `Markdown` writes before the threshold-warning position. -/
def mdPre (env : Env) (r : Report) : String :=
  lnStr (title r) ++ summaryHead env r

/-- The threshold-warning block with its three conditions flattened:
nonzero configured minimum, nonzero new-code total, new-code coverage
strictly below the minimum. -/
def thresholdWarningStr (env : Env) (r : Report) : String :=
  let tc := calculateNewCodeCoverage env r.diffInfo r.old r.new r.changedFiles
  if 0 < r.minCoverage ∧ 0 < tc.1 ∧ (tc.2 : ℚ) / (tc.1 : ℚ) * 100 < r.minCoverage then
    lnStr "> [!WARNING]" ++
    lnStr ("> **Coverage threshold not met:** New code coverage is **"
      ++ fmt2 ((tc.2 : ℚ) / (tc.1 : ℚ) * 100)
      ++ "%**, which is below the required threshold of **" ++ fmt2 r.minCoverage ++ "%**.") ++
    lnStr ""
  else ""

/-- Everything `Markdown` writes after the threshold-warning position. -/
def mdPost (env : Env) (r : Report) : String :=
  statementsTable r ++ packageDetails r ++ fileDetails r ++ newCodeDetailsSection env r

/-! ## Concrete fixtures used by counterexamples and witnesses -/

/-- Environment of a run where no source file can be located: the AST
mapper and the source reader fail for every file. -/
def envNone : Env := ⟨fun _ => none, fun _ => none⟩

/-- The new-code total obtained when every changed file found in the new
profile is counted in full — the common value of the whole-file-new and
fallback cases of the delta calculator. -/
def fullNewTotal (new : Coverage) (changedFiles : List String) : Int :=
  (changedFiles.map (fun f => profTotal (new.lookup f))).sum

end GoCov

namespace GoCov

/-! ## Helper lemmas -/

theorem pairFoldl_eq {α : Type} (g : α → Int × Int) (l : List α) (init : Int × Int) :
    l.foldl (fun acc x => (acc.1 + (g x).1, acc.2 + (g x).2)) init
      = (init.1 + (l.map (fun x => (g x).1)).sum, init.2 + (l.map (fun x => (g x).2)).sum) := by
  induction l generalizing init with
  | nil => simp
  | cons a t ih => simp [ih, add_assoc]

theorem mem_lineRange {n s e : Int} (h : n ∈ lineRange s e) : s ≤ n ∧ n ≤ e := by
  simp only [lineRange, List.mem_map, List.mem_range] at h
  obtain ⟨i, hi, rfl⟩ := h
  omega

theorem lineRange_mem {n s e : Int} (h1 : s ≤ n) (h2 : n ≤ e) : n ∈ lineRange s e := by
  simp only [lineRange, List.mem_map, List.mem_range]
  refine ⟨(n - s).toNat, by omega, by omega⟩

theorem length_lineRange (s e : Int) : (lineRange s e).length = (e + 1 - s).toNat := by
  rw [lineRange, List.length_map, List.length_range]

end GoCov

namespace GoCov

/-! ## Claim theorems -/

/-- Claim C10: querying a nil `DiffInfo` receiver, or a file with no
matching change-set entry, through `IsLineAdded` or `IsLineInRange` always
yields `false` — absence of diff information is reported as "not changed",
never as an error. -/
theorem C10_nil_safe_queries :
    ∀ (d : Option DiffInfo) (fileName : String) (lineNum startLine endLine : Int),
      isLineAdded none fileName lineNum = false ∧
      isLineInRange none fileName startLine endLine = false ∧
      (findFileDiff d fileName = none →
        isLineAdded d fileName lineNum = false ∧
        isLineInRange d fileName startLine endLine = false) := by
  intro d f n s e
  refine ⟨rfl, rfl, fun h => ⟨?_, ?_⟩⟩ <;> simp [isLineAdded, isLineInRange, h]

/-- Witness for C10 at a diff that has no entry matching the queried file. -/
theorem C10_witness :
    findFileDiff (some ⟨[("a.go", ⟨"a.go", [1], []⟩)]⟩) "b.go" = none ∧
    isLineAdded (some ⟨[("a.go", ⟨"a.go", [1], []⟩)]⟩) "b.go" 1 = false ∧
    isLineInRange (some ⟨[("a.go", ⟨"a.go", [1], []⟩)]⟩) "b.go" 1 5 = false := by
  have h : findFileDiff (some ⟨[("a.go", ⟨"a.go", [1], []⟩)]⟩) "b.go" = none := by decide
  have h2 := (C10_nil_safe_queries (some ⟨[("a.go", ⟨"a.go", [1], []⟩)]⟩) "b.go" 1 1 5).2.2 h
  exact ⟨h, h2.1, h2.2⟩

/-- Claim C7: `findFileDiff` matches by exact key first, then by a stored
key that is a suffix of the query, then by the query being a suffix of a
stored key; with no match it returns absent and the query functions
return `false`. -/
theorem C7_path_reconciliation :
    ∀ (info : DiffInfo) (fileName : String),
      (∀ fd, info.files.lookup fileName = some fd →
        findFileDiff (some info) fileName = some fd) ∧
      (info.files.lookup fileName = none →
        (∃ kv ∈ info.files, hasSuffixGo fileName kv.1 = true) →
        ∃ kv ∈ info.files, hasSuffixGo fileName kv.1 = true ∧
          findFileDiff (some info) fileName = some kv.2) ∧
      (info.files.lookup fileName = none →
        (∀ kv ∈ info.files, hasSuffixGo fileName kv.1 = false) →
        (∃ kv ∈ info.files, hasSuffixGo kv.1 fileName = true) →
        ∃ kv ∈ info.files, hasSuffixGo kv.1 fileName = true ∧
          findFileDiff (some info) fileName = some kv.2) ∧
      (info.files.lookup fileName = none →
        (∀ kv ∈ info.files, hasSuffixGo fileName kv.1 = false) →
        (∀ kv ∈ info.files, hasSuffixGo kv.1 fileName = false) →
        findFileDiff (some info) fileName = none ∧
        (∀ n, isLineAdded (some info) fileName n = false) ∧
        (∀ s e, isLineInRange (some info) fileName s e = false)) := by
  intro info f
  refine ⟨fun fd h => by simp [findFileDiff, h], fun h hex => ?_, fun h hno hex => ?_,
    fun h hno1 hno2 => ?_⟩
  · rcases hfind : info.files.find? (fun kv => hasSuffixGo f kv.1) with _ | kv
    · rw [List.find?_eq_none] at hfind
      obtain ⟨kv, hkv, hs⟩ := hex
      exact absurd hs (by simpa using hfind kv hkv)
    · exact ⟨kv, List.mem_of_find?_eq_some hfind, by simpa using List.find?_some hfind,
        by simp [findFileDiff, h, hfind]⟩
  · have hfind1 : info.files.find? (fun kv => hasSuffixGo f kv.1) = none :=
      List.find?_eq_none.mpr (fun kv hkv => by simp [hno kv hkv])
    rcases hfind : info.files.find? (fun kv => hasSuffixGo kv.1 f) with _ | kv
    · rw [List.find?_eq_none] at hfind
      obtain ⟨kv, hkv, hs⟩ := hex
      exact absurd hs (by simpa using hfind kv hkv)
    · exact ⟨kv, List.mem_of_find?_eq_some hfind, by simpa using List.find?_some hfind,
        by simp [findFileDiff, h, hfind1, hfind]⟩
  · have hfind1 : info.files.find? (fun kv => hasSuffixGo f kv.1) = none :=
      List.find?_eq_none.mpr (fun kv hkv => by simp [hno1 kv hkv])
    have hfind2 : info.files.find? (fun kv => hasSuffixGo kv.1 f) = none :=
      List.find?_eq_none.mpr (fun kv hkv => by simp [hno2 kv hkv])
    have hres : findFileDiff (some info) f = none := by
      simp [findFileDiff, h, hfind1, hfind2]
    exact ⟨hres, fun n => by simp [isLineAdded, hres], fun s e => by simp [isLineInRange, hres]⟩

/-- Witness for C7: the long-prefixed query matches the short stored key
and vice versa. -/
theorem C7_witness :
    findFileDiff (some ⟨[("pkg/file.go", ⟨"pkg/file.go", [3], []⟩)]⟩)
      "github.com/org/repo/pkg/file.go" = some ⟨"pkg/file.go", [3], []⟩ ∧
    findFileDiff (some ⟨[("github.com/org/repo/pkg/file.go",
      ⟨"github.com/org/repo/pkg/file.go", [3], []⟩)]⟩)
      "pkg/file.go" = some ⟨"github.com/org/repo/pkg/file.go", [3], []⟩ := by
  constructor
  · obtain ⟨kv, hkv, -, hres⟩ :=
      (C7_path_reconciliation ⟨[("pkg/file.go", ⟨"pkg/file.go", [3], []⟩)]⟩
        "github.com/org/repo/pkg/file.go").2.1 (by decide)
        ⟨("pkg/file.go", ⟨"pkg/file.go", [3], []⟩), by decide, by decide⟩
    rw [hres]
    rcases List.mem_singleton.mp hkv
    rfl
  · obtain ⟨kv, hkv, -, hres⟩ :=
      (C7_path_reconciliation ⟨[("github.com/org/repo/pkg/file.go",
          ⟨"github.com/org/repo/pkg/file.go", [3], []⟩)]⟩ "pkg/file.go").2.2.1 (by decide)
        (by decide)
        ⟨("github.com/org/repo/pkg/file.go", ⟨"github.com/org/repo/pkg/file.go", [3], []⟩),
          by decide, by decide⟩
    rw [hres]
    rcases List.mem_singleton.mp hkv
    rfl

/-- Claim C5: a changed file present in the new profile but absent from the
old one contributes exactly the new profile's `(TotalStmt, CoveredStmt)`,
in the change-set-aware mode and in the legacy block-identity mode alike. -/
theorem C5_whole_file_new :
    ∀ (env : Env) (diffInfo : Option DiffInfo) (old new : Coverage) (fileName : String)
      (p : Profile),
      old.lookup fileName = none → new.lookup fileName = some p →
      fileNewCoverageFromDiff env diffInfo old new fileName = (p.totalStmt, p.coveredStmt) ∧
      fileNewCoverageLegacy old new fileName = (p.totalStmt, p.coveredStmt) := by
  intro env d old new f p hold hnew
  constructor <;> simp [fileNewCoverageFromDiff, fileNewCoverageLegacy, hold, hnew]

/-- Witness for C5 on a file present only in the new profile. -/
theorem C5_witness :
    fileNewCoverageFromDiff envNone none
      ⟨[], 0, 0, 0⟩ ⟨[("f.go", ⟨"f.go", [⟨1, 0, 4, 0, 7, 1⟩], 7, 4, 3⟩)], 7, 4, 3⟩
      "f.go" = (7, 4) ∧
    fileNewCoverageLegacy
      ⟨[], 0, 0, 0⟩ ⟨[("f.go", ⟨"f.go", [⟨1, 0, 4, 0, 7, 1⟩], 7, 4, 3⟩)], 7, 4, 3⟩
      "f.go" = (7, 4) :=
  C5_whole_file_new envNone none
    ⟨[], 0, 0, 0⟩ ⟨[("f.go", ⟨"f.go", [⟨1, 0, 4, 0, 7, 1⟩], 7, 4, 3⟩)], 7, 4, 3⟩
    "f.go" ⟨"f.go", [⟨1, 0, 4, 0, 7, 1⟩], 7, 4, 3⟩ (by decide) (by decide)

theorem lookup_markAdded (files : List (String × FileDiff)) (key : String) (fd : FileDiff)
    (n : Int) (h : files.lookup key = some fd) :
    (markAdded files key n).lookup key =
      some { fd with addedLines := insertLine fd.addedLines n } := by
  induction files with
  | nil => simp [List.lookup] at h
  | cons kv rest ih =>
    obtain ⟨k', fd'⟩ := kv
    by_cases hk : key = k'
    · subst hk
      simp only [List.lookup, beq_self_eq_true] at h
      cases h
      simp [markAdded, List.lookup]
    · have hk2 : (key == k') = false := by simp [hk]
      have hk3 : ¬ (k' = key) := fun he => hk he.symm
      simp only [List.lookup, hk2] at h
      simpa [markAdded, hk3, List.lookup, hk2] using ih h

theorem contains_insertLine (l : List Int) (n : Int) : (insertLine l n).contains n = true := by
  by_cases h : l.contains n <;> simp_all [insertLine]

/-- Claim C6: the `ParseUnifiedDiff` scanner starts a fresh `FileChange` on
each `+++ b/<path>` header keyed by the stripped path, resets the running
counter on a well-formed hunk header, marks-and-advances on `+` lines (but
not `+++` ones), advances without marking on context lines, leaves the
counter alone on `-` lines, and survives a malformed hunk header by
keeping the previous (stale or zero) counter. -/
theorem C6_unified_diff_parsing :
    ∀ (st : ParseState) (line : String),
      (hasPrefixGo line "+++ b/" = true →
        parseDiffLine st line =
          { st with
            files := setEntry st.files (dropGo line 6) ⟨dropGo line 6, [], []⟩
            currentFile := some (dropGo line 6) }) ∧
      (hasPrefixGo line "+++ b/" = false → hasPrefixGo line "@@" = true →
        (∀ c, hunkNewStart line = some c →
          parseDiffLine st line = { st with currentLine := c }) ∧
        (hunkNewStart line = none → parseDiffLine st line = st)) ∧
      (∀ key, hasPrefixGo line "+++ b/" = false → hasPrefixGo line "@@" = false →
        hasPrefixGo line "+" = true → hasPrefixGo line "+++" = false →
        st.currentFile = some key →
        parseDiffLine st line =
          { st with
            files := markAdded st.files key st.currentLine
            currentLine := st.currentLine + 1 }) ∧
      (∀ key, hasPrefixGo line "+++ b/" = false → hasPrefixGo line "@@" = false →
        hasPrefixGo line "+" = false → hasPrefixGo line " " = true →
        st.currentFile = some key →
        parseDiffLine st line = { st with currentLine := st.currentLine + 1 }) ∧
      (hasPrefixGo line "+++ b/" = false → hasPrefixGo line "@@" = false →
        hasPrefixGo line "+" = false → hasPrefixGo line " " = false →
        parseDiffLine st line = st) ∧
      (∀ files key fd n, files.lookup key = some fd →
        (markAdded files key n).lookup key =
          some { fd with addedLines := insertLine fd.addedLines n }) ∧
      (∀ l n, (insertLine l n).contains n = true) := by
  intro st line
  refine ⟨fun h1 => ?_, fun h1 h2 => ⟨fun c hc => ?_, fun hc => ?_⟩,
    fun key h1 h2 h3 h4 hk => ?_, fun key h1 h2 h3 h4 hk => ?_,
    fun h1 h2 h3 h4 => ?_, lookup_markAdded, contains_insertLine⟩
  · simp [parseDiffLine, h1]
  · simp [parseDiffLine, h1, h2, hc]
  · simp [parseDiffLine, h1, h2, hc]
  · simp [parseDiffLine, h1, h2, h3, h4, hk]
  · simp [parseDiffLine, h1, h2, h3, h4, hk]
  · rcases hcf : st.currentFile with _ | key <;>
      simp [parseDiffLine, h1, h2, h3, h4, hcf]

/-- Witness for C6: one concrete scanner step of each kind. -/
theorem C6_witness :
    parseDiffLine ⟨[("t.go", ⟨"t.go", [], []⟩)], some "t.go", 7⟩ "+x := 1" =
      ⟨[("t.go", ⟨"t.go", [7], []⟩)], some "t.go", 8⟩ ∧
    parseDiffLine ⟨[("t.go", ⟨"t.go", [7], []⟩)], some "t.go", 8⟩ " ctx" =
      ⟨[("t.go", ⟨"t.go", [7], []⟩)], some "t.go", 9⟩ ∧
    parseDiffLine ⟨[("t.go", ⟨"t.go", [7], []⟩)], some "t.go", 9⟩ "-gone" =
      ⟨[("t.go", ⟨"t.go", [7], []⟩)], some "t.go", 9⟩ ∧
    parseDiffLine ⟨[("t.go", ⟨"t.go", [7], []⟩)], some "t.go", 9⟩ "@@ -1,2 +41,6 @@" =
      ⟨[("t.go", ⟨"t.go", [7], []⟩)], some "t.go", 41⟩ ∧
    parseDiffLine ⟨[("t.go", ⟨"t.go", [7], []⟩)], some "t.go", 9⟩ "@@ -a,b +c,d @@" =
      ⟨[("t.go", ⟨"t.go", [7], []⟩)], some "t.go", 9⟩ ∧
    parseDiffLine ⟨[], none, 0⟩ "+++ b/pkg/y.go" =
      ⟨[("pkg/y.go", ⟨"pkg/y.go", [], []⟩)], some "pkg/y.go", 0⟩ := by
  refine ⟨?_, ?_, ?_, ?_, ?_, ?_⟩
  · exact ((C6_unified_diff_parsing ⟨[("t.go", ⟨"t.go", [], []⟩)], some "t.go", 7⟩
      "+x := 1").2.2.1 "t.go" (by decide) (by decide) (by decide) (by decide) rfl).trans
      (by decide)
  · exact ((C6_unified_diff_parsing ⟨[("t.go", ⟨"t.go", [7], []⟩)], some "t.go", 8⟩
      " ctx").2.2.2.1 "t.go" (by decide) (by decide) (by decide) (by decide) rfl).trans
      (by decide)
  · exact ((C6_unified_diff_parsing ⟨[("t.go", ⟨"t.go", [7], []⟩)], some "t.go", 9⟩
      "-gone").2.2.2.2.1 (by decide) (by decide) (by decide) (by decide)).trans (by decide)
  · exact (((C6_unified_diff_parsing ⟨[("t.go", ⟨"t.go", [7], []⟩)], some "t.go", 9⟩
      "@@ -1,2 +41,6 @@").2.1 (by decide) (by decide)).1 41 (by decide)).trans (by decide)
  · exact (((C6_unified_diff_parsing ⟨[("t.go", ⟨"t.go", [7], []⟩)], some "t.go", 9⟩
      "@@ -a,b +c,d @@").2.1 (by decide) (by decide)).2 (by decide)).trans (by decide)
  · exact ((C6_unified_diff_parsing ⟨[], none, 0⟩ "+++ b/pkg/y.go").1 (by decide)).trans
      (by decide)

theorem ratTrunc_eq_floor {q : ℚ} (h : 0 ≤ q) : ratTrunc q = ⌊q⌋ := if_pos h

/-- Claim C9: the severity bands of `emojiScore` — five repeated severe
markers below −50, `floor(−delta/10)` of them in [−50, −10), one mild
negative marker in [−10, 0), no marker and the neutral `ø` at zero, one
mild positive marker in (0, 10], the strong marker in (10, 20], the
strongest above 20; every nonzero delta is rendered as the signed
two-decimal percentage in bold. -/
theorem C9_severity_banding :
    ∀ newPercent oldPercent : ℚ,
      (newPercent - oldPercent < -50 →
        emojiScore newPercent oldPercent =
          (repeatStr ":skull: " 5, "**" ++ fmtSigned2 (newPercent - oldPercent) ++ "%**")) ∧
      (-50 ≤ newPercent - oldPercent → newPercent - oldPercent < -10 →
        emojiScore newPercent oldPercent =
          (repeatStr ":skull: " (⌊-(newPercent - oldPercent) / 10⌋).toNat,
           "**" ++ fmtSigned2 (newPercent - oldPercent) ++ "%**")) ∧
      (-10 ≤ newPercent - oldPercent → newPercent - oldPercent < 0 →
        emojiScore newPercent oldPercent =
          (":thumbsdown:", "**" ++ fmtSigned2 (newPercent - oldPercent) ++ "%**")) ∧
      (newPercent - oldPercent = 0 → emojiScore newPercent oldPercent = ("", "ø")) ∧
      (0 < newPercent - oldPercent → newPercent - oldPercent ≤ 10 →
        emojiScore newPercent oldPercent =
          (":thumbsup:", "**" ++ fmtSigned2 (newPercent - oldPercent) ++ "%**")) ∧
      (10 < newPercent - oldPercent → newPercent - oldPercent ≤ 20 →
        emojiScore newPercent oldPercent =
          (":tada:", "**" ++ fmtSigned2 (newPercent - oldPercent) ++ "%**")) ∧
      (20 < newPercent - oldPercent →
        emojiScore newPercent oldPercent =
          (":star2:", "**" ++ fmtSigned2 (newPercent - oldPercent) ++ "%**")) := by
  intro n o
  have hts : n - o < -10 → ratTrunc (-(n - o) / 10) = ⌊-(n - o) / 10⌋ := fun hq =>
    ratTrunc_eq_floor (div_nonneg (by linarith) (by norm_num))
  refine ⟨fun h1 => ?_, fun h1 h2 => ?_, fun h1 h2 => ?_, fun h => ?_, fun h1 h2 => ?_,
    fun h1 h2 => ?_, fun h1 => ?_⟩ <;>
    simp only [emojiScore] <;>
    split_ifs <;> first | rfl | linarith | rw [hts (by linarith)]

/-- Witness for C9 inside the repeated-marker band: a −23.5 point drop
yields two severe markers. -/
theorem C9_witness :
    (-50 : ℚ) ≤ (51.2 : ℚ) - 74.7 ∧ ((51.2 : ℚ) - 74.7) < -10 ∧
    emojiScore (51.2 : ℚ) 74.7 =
      (repeatStr ":skull: " 2, "**" ++ fmtSigned2 ((51.2 : ℚ) - 74.7) ++ "%**") := by
  refine ⟨by norm_num, by norm_num, ?_⟩
  rw [(C9_severity_banding (51.2 : ℚ) 74.7).2.1 (by norm_num) (by norm_num),
    show (⌊-((51.2 : ℚ) - 74.7) / 10⌋).toNat = 2 from by
      rw [show ⌊-((51.2 : ℚ) - 74.7) / 10⌋ = 2 from by norm_num]
      rfl]

/-- Claim C3: with a non-empty change-set entry, whenever the
statement-accurate AST path is unavailable or finds no qualifying line, a
block with no changed line contributes nothing, and a block with
`changedLines > 0` contributes `floor(numStmt × changedLines / span)` new
statements but at least 1, the full estimate counting as covered exactly
when the block's execution count is positive. -/
theorem C3_proportional_fallback :
    ∀ (env : Env) (fileName : String) (fd : FileDiff) (b : ProfileBlock),
      b.startLine ≤ b.endLine → 0 ≤ b.numStmt →
      countStatementsInBlockUsingAST env fileName b fd = none →
      ((lineRange b.startLine b.endLine).countP fd.isChanged = 0 →
        blockNewCoverage env fileName fd b = (0, 0)) ∧
      (0 < (lineRange b.startLine b.endLine).countP fd.isChanged →
        blockNewCoverage env fileName fd b =
          (max 1 ((b.numStmt.toNat * ((lineRange b.startLine b.endLine).countP fd.isChanged)
              / (b.endLine - b.startLine + 1).toNat : ℕ) : Int),
           if 0 < b.count then
             max 1 ((b.numStmt.toNat * ((lineRange b.startLine b.endLine).countP fd.isChanged)
               / (b.endLine - b.startLine + 1).toNat : ℕ) : Int)
           else 0)) := by
  intro env f fd b hse hn hast
  constructor
  · intro h0
    simp [blockNewCoverage, hast, h0]
  · intro hpos
    have hest : b.numStmt * (((lineRange b.startLine b.endLine).countP fd.isChanged : ℕ) : Int)
        / (b.endLine - b.startLine + 1)
        = ((b.numStmt.toNat * ((lineRange b.startLine b.endLine).countP fd.isChanged)
            / (b.endLine - b.startLine + 1).toNat : ℕ) : Int) := by
      rw [Int.natCast_div, Nat.cast_mul,
        Int.toNat_of_nonneg hn, Int.toNat_of_nonneg (by omega : (0 : Int) ≤ b.endLine - b.startLine + 1)]
    have hmax : ∀ N : ℕ,
        (if (N : Int) = 0 ∧ 0 < (lineRange b.startLine b.endLine).countP fd.isChanged
          then (1 : Int) else (N : Int)) = max 1 (N : Int) := by
      intro N
      rcases Nat.eq_zero_or_pos N with h | h
      · simp [h, hpos]
      · rw [if_neg (fun hc => by omega), max_eq_right (by exact_mod_cast h)]
    simp only [blockNewCoverage, hast, if_pos hpos]
    rw [hest, hmax]

/-- Witness for C3, the spec's own scenario: a 6-line block with
`numStmt = 5`, two changed lines and no statement index contributes
`(1, 1)` when covered: `floor(5·2/6) = 1`. -/
theorem C3_witness :
    countStatementsInBlockUsingAST envNone "f.go" ⟨1, 0, 6, 0, 5, 1⟩ ⟨"f.go", [2, 4], []⟩ = none ∧
    (lineRange 1 6).countP (FileDiff.isChanged ⟨"f.go", [2, 4], []⟩) = 2 ∧
    blockNewCoverage envNone "f.go" ⟨"f.go", [2, 4], []⟩ ⟨1, 0, 6, 0, 5, 1⟩ = (1, 1) := by
  refine ⟨by decide, by decide, ?_⟩
  rw [((C3_proportional_fallback envNone "f.go" ⟨"f.go", [2, 4], []⟩ ⟨1, 0, 6, 0, 5, 1⟩
    (by decide) (by decide) (by decide)).2 (by decide))]
  decide

theorem blockwise_zero (env : Env) (f : String) (fd : FileDiff) (blocks : List ProfileBlock)
    (h : ∀ b ∈ blocks, blockNewCoverage env f fd b = (0, 0)) :
    blockwiseNewCoverage env f fd blocks = (0, 0) := by
  rw [blockwiseNewCoverage, pairFoldl_eq]
  have h1 : (blocks.map (fun b => (blockNewCoverage env f fd b).1)).sum = 0 :=
    List.sum_eq_zero (fun x hx => by
      obtain ⟨b, hb, rfl⟩ := List.mem_map.mp hx
      rw [h b hb])
  have h2 : (blocks.map (fun b => (blockNewCoverage env f fd b).2)).sum = 0 :=
    List.sum_eq_zero (fun x hx => by
      obtain ⟨b, hb, rfl⟩ := List.mem_map.mp hx
      rw [h b hb])
  simp [h1, h2]

theorem blockNewCoverage_of_unchanged (env : Env) (f : String) (fd : FileDiff)
    (b : ProfileBlock)
    (h : ∀ n : Int, b.startLine ≤ n → n ≤ b.endLine → fd.isChanged n = false) :
    blockNewCoverage env f fd b = (0, 0) := by
  have hcnt : (lineRange b.startLine b.endLine).countP fd.isChanged = 0 :=
    List.countP_eq_zero.mpr (fun a ha => by
      have hm := mem_lineRange ha
      simp [h a hm.1 hm.2])
  have hast : countStatementsInBlockUsingAST env f b fd = none := by
    unfold countStatementsInBlockUsingAST
    cases henv : env.statementLines f with
    | none => rfl
    | some stmts =>
      have hz : (lineRange b.startLine b.endLine).countP
          (fun line => fd.isChanged line && stmts.contains line) = 0 :=
        List.countP_eq_zero.mpr (fun a ha => by
          have hm := mem_lineRange ha
          simp [h a hm.1 hm.2])
      simp only [hz]
      rfl
  simp [blockNewCoverage, hast, hcnt]

/-- Counterexample to claim C1 as stated: a file present in both profiles
whose change-set entry exists but has empty line sets (so that no changed
line overlaps any block, vacuously) contributes the full profile totals
`(5, 4)`, not `(0, 0)` — the empty entry triggers the whole-file fallback. -/
theorem C1_counterexample :
    findFileDiff (some ⟨[("f.go", ⟨"f.go", [], []⟩)]⟩) "f.go" = some ⟨"f.go", [], []⟩ ∧
    calculateNewCodeCoverageFromDiff envNone (some ⟨[("f.go", ⟨"f.go", [], []⟩)]⟩)
      ⟨[("f.go", ⟨"f.go", [⟨1, 0, 5, 0, 5, 1⟩], 5, 4, 1⟩)], 5, 4, 1⟩
      ⟨[("f.go", ⟨"f.go", [⟨1, 0, 5, 0, 5, 1⟩], 5, 4, 1⟩)], 5, 4, 1⟩
      ["f.go"] = (5, 4) ∧
    ((5, 4) : Int × Int) ≠ (0, 0) := by
  refine ⟨by decide, by decide, by decide⟩

/-- Claim C1 (amended): for a file present in both profiles whose
change-set entry has a non-empty added-line set, if no changed line of the
entry lies within the `[startLine, endLine]` range of any block of the
file's new profile, the file contributes exactly `(0, 0)`.  (As stated the
claim also covered entries with empty line sets; those instead take the
whole-file fallback, see the counterexample.) -/
theorem C1_zero_diff_amended :
    ∀ (env : Env) (diffInfo : Option DiffInfo) (old new : Coverage) (fileName : String)
      (oldP newP : Profile) (fd : FileDiff),
      old.lookup fileName = some oldP → new.lookup fileName = some newP →
      findFileDiff diffInfo fileName = some fd →
      fd.addedLines ≠ [] →
      (∀ b ∈ newP.blocks, ∀ n : Int, b.startLine ≤ n → n ≤ b.endLine →
        fd.isChanged n = false) →
      fileNewCoverageFromDiff env diffInfo old new fileName = (0, 0) := by
  intro env d old new f oldP newP fd hold hnew hfd hne hnoov
  have hempty : fd.addedLines.isEmpty = false := by
    cases hl : fd.addedLines with
    | nil => exact absurd hl hne
    | cons a t => rfl
  simp only [fileNewCoverageFromDiff, hnew, hold, hfd, hempty, Bool.false_eq_true, if_false]
  exact blockwise_zero env f fd newP.blocks
    (fun b hb => blockNewCoverage_of_unchanged env f fd b (hnoov b hb))

/-- Witness for the amended C1: one added line at 3, a single block
spanning 10–12, contribution `(0, 0)`. -/
theorem C1_witness :
    fileNewCoverageFromDiff envNone (some ⟨[("f.go", ⟨"f.go", [3], []⟩)]⟩)
      ⟨[("f.go", ⟨"f.go", [⟨10, 0, 12, 0, 4, 1⟩], 4, 4, 0⟩)], 4, 4, 0⟩
      ⟨[("f.go", ⟨"f.go", [⟨10, 0, 12, 0, 4, 1⟩], 4, 4, 0⟩)], 4, 4, 0⟩
      "f.go" = (0, 0) := by
  apply C1_zero_diff_amended envNone (some ⟨[("f.go", ⟨"f.go", [3], []⟩)]⟩)
    ⟨[("f.go", ⟨"f.go", [⟨10, 0, 12, 0, 4, 1⟩], 4, 4, 0⟩)], 4, 4, 0⟩
    ⟨[("f.go", ⟨"f.go", [⟨10, 0, 12, 0, 4, 1⟩], 4, 4, 0⟩)], 4, 4, 0⟩
    "f.go" ⟨"f.go", [⟨10, 0, 12, 0, 4, 1⟩], 4, 4, 0⟩ ⟨"f.go", [⟨10, 0, 12, 0, 4, 1⟩], 4, 4, 0⟩
    ⟨"f.go", [3], []⟩ (by decide) (by decide) (by decide) (by decide)
  intro b hb n h1 h2
  rcases List.mem_singleton.mp hb
  simp only [FileDiff.isChanged, FileDiff.isAdded, FileDiff.isModified] at h1 h2 ⊢
  simp
  omega

/-- Counterexample to claim C2 as stated: a change-set entry that is
non-empty in the claim's sense (it contains the modified line 3) but has an
empty added-line set takes the whole-file fallback `(10, 0)`, not the
per-block evaluation `(1, 0)`. -/
theorem C2_counterexample :
    findFileDiff (some ⟨[("f.go", ⟨"f.go", [], [3]⟩)]⟩) "f.go" = some ⟨"f.go", [], [3]⟩ ∧
    (⟨"f.go", [], [3]⟩ : FileDiff).isChanged 3 = true ∧
    fileNewCoverageFromDiff envNone (some ⟨[("f.go", ⟨"f.go", [], [3]⟩)]⟩)
      ⟨[("f.go", ⟨"f.go", [⟨1, 0, 5, 0, 2, 0⟩], 10, 0, 10⟩)], 10, 0, 10⟩
      ⟨[("f.go", ⟨"f.go", [⟨1, 0, 5, 0, 2, 0⟩], 10, 0, 10⟩)], 10, 0, 10⟩
      "f.go" = (10, 0) ∧
    blockwiseNewCoverage envNone "f.go" ⟨"f.go", [], [3]⟩ [⟨1, 0, 5, 0, 2, 0⟩] = (1, 0) ∧
    ((10, 0) : Int × Int) ≠ (1, 0) := by
  refine ⟨by decide, by decide, by decide, by decide, by decide⟩

/-- Claim C2 (amended): for a file present in both profiles, the per-block
evaluation (case 4) is taken exactly when the change-set entry found has a
non-empty *added*-line set; the whole-file fallback (case 3) is taken when
no entry is found or the entry's added-line set is empty — even if the
entry carries modified lines (see the counterexample). -/
theorem C2_dispatch_amended :
    ∀ (env : Env) (diffInfo : Option DiffInfo) (old new : Coverage) (fileName : String)
      (oldP newP : Profile),
      old.lookup fileName = some oldP → new.lookup fileName = some newP →
      (∀ fd, findFileDiff diffInfo fileName = some fd → fd.addedLines ≠ [] →
        fileNewCoverageFromDiff env diffInfo old new fileName =
          blockwiseNewCoverage env fileName fd newP.blocks) ∧
      (findFileDiff diffInfo fileName = none →
        fileNewCoverageFromDiff env diffInfo old new fileName =
          (newP.totalStmt, newP.coveredStmt)) ∧
      (∀ fd, findFileDiff diffInfo fileName = some fd → fd.addedLines = [] →
        fileNewCoverageFromDiff env diffInfo old new fileName =
          (newP.totalStmt, newP.coveredStmt)) := by
  intro env d old new f oldP newP hold hnew
  refine ⟨fun fd hfd hne => ?_, fun hfd => ?_, fun fd hfd hemp => ?_⟩
  · have hempty : fd.addedLines.isEmpty = false := by
      cases hl : fd.addedLines with
      | nil => exact absurd hl hne
      | cons a t => rfl
    simp [fileNewCoverageFromDiff, hold, hnew, hfd, hempty]
  · simp [fileNewCoverageFromDiff, hold, hnew, hfd]
  · simp [fileNewCoverageFromDiff, hold, hnew, hfd, hemp]

/-- Witness for the amended C2: an entry with one added line dispatches to
the per-block evaluation. -/
theorem C2_witness :
    fileNewCoverageFromDiff envNone (some ⟨[("f.go", ⟨"f.go", [2], []⟩)]⟩)
      ⟨[("f.go", ⟨"f.go", [⟨1, 0, 5, 0, 2, 1⟩], 2, 2, 0⟩)], 2, 2, 0⟩
      ⟨[("f.go", ⟨"f.go", [⟨1, 0, 5, 0, 2, 1⟩], 2, 2, 0⟩)], 2, 2, 0⟩
      "f.go" =
      blockwiseNewCoverage envNone "f.go" ⟨"f.go", [2], []⟩ [⟨1, 0, 5, 0, 2, 1⟩] :=
  (C2_dispatch_amended envNone (some ⟨[("f.go", ⟨"f.go", [2], []⟩)]⟩)
    ⟨[("f.go", ⟨"f.go", [⟨1, 0, 5, 0, 2, 1⟩], 2, 2, 0⟩)], 2, 2, 0⟩
    ⟨[("f.go", ⟨"f.go", [⟨1, 0, 5, 0, 2, 1⟩], 2, 2, 0⟩)], 2, 2, 0⟩
    "f.go" ⟨"f.go", [⟨1, 0, 5, 0, 2, 1⟩], 2, 2, 0⟩ ⟨"f.go", [⟨1, 0, 5, 0, 2, 1⟩], 2, 2, 0⟩
    (by decide) (by decide)).1 ⟨"f.go", [2], []⟩ (by decide) (by decide)

theorem blockNewCoverage_fst_le (env : Env) (f : String) (fd : FileDiff) (b : ProfileBlock)
    (h1 : 1 ≤ b.numStmt)
    (hast : ∀ n, countStatementsInBlockUsingAST env f b fd = some n → (n : Int) ≤ b.numStmt) :
    (blockNewCoverage env f fd b).1 ≤ b.numStmt := by
  rcases hc : countStatementsInBlockUsingAST env f b fd with _ | n
  · by_cases hpos : 0 < (lineRange b.startLine b.endLine).countP fd.isChanged
    · have hclen : (lineRange b.startLine b.endLine).countP fd.isChanged ≤
          (lineRange b.startLine b.endLine).length := List.countP_le_length _
      rw [length_lineRange] at hclen
      have hspan : 0 < b.endLine - b.startLine + 1 := by omega
      have hcle : ((lineRange b.startLine b.endLine).countP fd.isChanged : Int) ≤
          b.endLine - b.startLine + 1 := by omega
      have hest : b.numStmt * ((lineRange b.startLine b.endLine).countP fd.isChanged : Int)
          / (b.endLine - b.startLine + 1) ≤ b.numStmt := by
        calc b.numStmt * ((lineRange b.startLine b.endLine).countP fd.isChanged : Int)
              / (b.endLine - b.startLine + 1)
            ≤ b.numStmt * (b.endLine - b.startLine + 1) / (b.endLine - b.startLine + 1) :=
              Int.ediv_le_ediv hspan (by nlinarith)
          _ = b.numStmt := Int.mul_ediv_cancel _ (by omega)
      simp only [blockNewCoverage, hc, if_pos hpos]
      split_ifs with hz
      · omega
      · exact hest
    · simp [blockNewCoverage, hc, hpos]
      omega
  · simp only [blockNewCoverage, hc]
    exact hast n hc

theorem fileFromDiff_fst_le (env : Env) (d : Option DiffInfo) (old new : Coverage) (f : String)
    (hinv : ∀ p, new.lookup f = some p →
      p.totalStmt = (p.blocks.map (fun b => b.numStmt)).sum ∧
      (∀ b ∈ p.blocks, 1 ≤ b.numStmt) ∧
      (∀ b ∈ p.blocks, ∀ fd n,
        countStatementsInBlockUsingAST env f b fd = some n → (n : Int) ≤ b.numStmt)) :
    (fileNewCoverageFromDiff env d old new f).1 ≤ profTotal (new.lookup f) := by
  rcases hnew : new.lookup f with _ | p
  · simp [fileNewCoverageFromDiff, hnew, profTotal]
  · obtain ⟨hsum, hns, hast⟩ := hinv p hnew
    rcases hold : old.lookup f with _ | oldP
    · simp [fileNewCoverageFromDiff, hnew, hold, profTotal]
    · rcases hfd : findFileDiff d f with _ | fd
      · simp [fileNewCoverageFromDiff, hnew, hold, hfd, profTotal]
      · by_cases hemp : fd.addedLines.isEmpty = true
        · simp [fileNewCoverageFromDiff, hnew, hold, hfd, hemp, profTotal]
        · rw [Bool.not_eq_true] at hemp
          simp only [fileNewCoverageFromDiff, hnew, hold, hfd, hemp, Bool.false_eq_true,
            if_false, profTotal]
          rw [blockwiseNewCoverage, pairFoldl_eq]
          simp only [zero_add]
          rw [hsum]
          exact List.sum_le_sum (fun b hb =>
            blockNewCoverage_fst_le env f fd b (hns b hb) (hast b hb fd))

/-- Counterexample to claim C4 as stated: a block identical in the old and
new profiles that contains one changed line is skipped by the legacy
block-identity mode (`totalNew = 0`) but counts under the change-set-aware
mode (`totalNew = 1`), so the claimed inequality fails. -/
theorem C4_counterexample :
    ¬ ((calculateNewCodeCoverageFromDiff envNone
        (some ⟨[("f.go", ⟨"f.go", [3], []⟩)]⟩)
        ⟨[("f.go", ⟨"f.go", [⟨1, 0, 5, 0, 5, 1⟩], 5, 5, 0⟩)], 5, 5, 0⟩
        ⟨[("f.go", ⟨"f.go", [⟨1, 0, 5, 0, 5, 1⟩], 5, 5, 0⟩)], 5, 5, 0⟩
        ["f.go"]).1 ≤
      (calculateNewCodeCoverage envNone none
        ⟨[("f.go", ⟨"f.go", [⟨1, 0, 5, 0, 5, 1⟩], 5, 5, 0⟩)], 5, 5, 0⟩
        ⟨[("f.go", ⟨"f.go", [⟨1, 0, 5, 0, 5, 1⟩], 5, 5, 0⟩)], 5, 5, 0⟩
        ["f.go"]).1) := by decide

/-- Claim C4 (amended): the change-set-aware `totalNew` never exceeds the
sum over the changed files of the new profile's per-file statement totals
(the value the legacy and fallback paths report when nothing matches),
assuming the documented profile invariant (`TotalStmt` is the sum of the
blocks' `NumStmt`), at least one statement per block, and an AST statement
count never exceeding the block's `NumStmt`.  The bound against the legacy
block-identity mode claimed originally fails whenever a block present in
both profiles contains a changed line (see the counterexample). -/
theorem C4_monotonic_amended :
    ∀ (env : Env) (diffInfo : Option DiffInfo) (old new : Coverage)
      (changedFiles : List String),
      (∀ f ∈ changedFiles, ∀ p, new.lookup f = some p →
        p.totalStmt = (p.blocks.map (fun b => b.numStmt)).sum ∧
        (∀ b ∈ p.blocks, 1 ≤ b.numStmt) ∧
        (∀ b ∈ p.blocks, ∀ fd n,
          countStatementsInBlockUsingAST env f b fd = some n → (n : Int) ≤ b.numStmt)) →
      (calculateNewCodeCoverageFromDiff env diffInfo old new changedFiles).1 ≤
        fullNewTotal new changedFiles := by
  intro env d old new changed hinv
  rw [calculateNewCodeCoverageFromDiff, pairFoldl_eq, fullNewTotal]
  simp only [zero_add]
  exact List.sum_le_sum (fun f hf => fileFromDiff_fst_le env d old new f (hinv f hf))

/-- Witness for the amended C4 at the counterexample's own input: the
change-set-aware total 1 is bounded by the full per-file total 5. -/
theorem C4_witness :
    (calculateNewCodeCoverageFromDiff envNone (some ⟨[("f.go", ⟨"f.go", [3], []⟩)]⟩)
      ⟨[("f.go", ⟨"f.go", [⟨1, 0, 5, 0, 5, 1⟩], 5, 5, 0⟩)], 5, 5, 0⟩
      ⟨[("f.go", ⟨"f.go", [⟨1, 0, 5, 0, 5, 1⟩], 5, 5, 0⟩)], 5, 5, 0⟩
      ["f.go"]).1 ≤
      fullNewTotal ⟨[("f.go", ⟨"f.go", [⟨1, 0, 5, 0, 5, 1⟩], 5, 5, 0⟩)], 5, 5, 0⟩
        ["f.go"] := by
  apply C4_monotonic_amended
  intro f hf p hp
  rcases List.mem_singleton.mp hf
  have hp2 : p = ⟨"f.go", [⟨1, 0, 5, 0, 5, 1⟩], 5, 5, 0⟩ := by
    simp [Coverage.lookup, List.lookup] at hp
    exact hp.symm
  subst hp2
  refine ⟨by decide, by decide, ?_⟩
  intro b hb fd n h
  simp [countStatementsInBlockUsingAST, envNone] at h

theorem summaryWarning_eq (env : Env) (r : Report) :
    summaryWarning env r = thresholdWarningStr env r := by
  simp only [summaryWarning, thresholdWarningStr]
  split_ifs <;> first | rfl | tauto

theorem lnStr_append_ne (a b c : String) : lnStr a ++ b ++ c ≠ "" := by
  intro hc
  have hd := congrArg String.data hc
  rw [String.data_append, String.data_append, lnStr, String.data_append] at hd
  simp at hd

/-- Claim C8: the rendered Markdown carries the threshold-warning block
exactly when the configured minimum is positive, the new-code statement
total is positive, and the new-code percentage is strictly below the
minimum; the rest of the report is rendered identically whether or not the
threshold is violated (rendering is a total function — no error path
exists). -/
theorem C8_threshold_warning :
    ∀ (env : Env) (r : Report),
      markdown env r = mdPre env r ++ thresholdWarningStr env r ++ mdPost env r ∧
      (thresholdWarningStr env r ≠ "" ↔
        (0 < r.minCoverage ∧
          0 < (calculateNewCodeCoverage env r.diffInfo r.old r.new r.changedFiles).1 ∧
          ((calculateNewCodeCoverage env r.diffInfo r.old r.new r.changedFiles).2 : ℚ) /
            ((calculateNewCodeCoverage env r.diffInfo r.old r.new r.changedFiles).1 : ℚ) * 100 <
            r.minCoverage)) ∧
      (∀ m : ℚ,
        mdPre env { r with minCoverage := m } = mdPre env r ∧
        mdPost env { r with minCoverage := m } = mdPost env r) := by
  intro env r
  refine ⟨?_, ?_, fun m => ⟨rfl, rfl⟩⟩
  · rw [markdown, overallCoverageSummary, mdPre, mdPost, summaryWarning_eq]
    simp only [String.append_assoc]
  · simp only [thresholdWarningStr]
    split_ifs with h
    · exact ⟨fun _ => h, fun _ => lnStr_append_ne _ _ _⟩
    · simp [h]

/-- Witness for C8 on a report with no new code: the warning block is
absent. -/
theorem C8_witness :
    thresholdWarningStr envNone ⟨⟨[], 0, 0, 0⟩, ⟨[], 0, 0, 0⟩, [], [], 80, none⟩ = "" := by
  by_contra hne
  have h := ((C8_threshold_warning envNone
    ⟨⟨[], 0, 0, 0⟩, ⟨[], 0, 0, 0⟩, [], [], 80, none⟩).2.1).mp hne
  exact absurd h.2.1 (by decide)

end GoCov

-- regression examples mirroring the repository's own tests (diff_test.go)
example :
    GoCov.calculateNewCodeCoverageFromDiff
      ⟨fun _ => none, fun _ => none⟩
      (some ⟨[("github.com/test/file.go",
        ⟨"github.com/test/file.go", [11, 12, 13, 14, 15], []⟩)]⟩)
      ⟨[("github.com/test/file.go",
        ⟨"github.com/test/file.go",
         [⟨1, 0, 5, 0, 5, 1⟩, ⟨6, 0, 10, 0, 5, 1⟩], 10, 8, 2⟩)], 10, 8, 2⟩
      ⟨[("github.com/test/file.go",
        ⟨"github.com/test/file.go",
         [⟨1, 0, 5, 0, 5, 1⟩, ⟨6, 0, 10, 0, 5, 1⟩, ⟨11, 0, 15, 0, 5, 1⟩], 15, 12, 3⟩)], 15, 12, 3⟩
      ["github.com/test/file.go"] = (5, 5) := by decide

example :
    GoCov.isLineAdded (some (GoCov.parseUnifiedDiff
      ["diff --git a/test.go b/test.go",
       "index 1234567..abcdefg 100644",
       "--- a/test.go",
       "+++ b/test.go",
       "@@ -10,6 +10,9 @@ func main() \x7b",
       " \tfmt.Println(\x22Hello\x22)",
       " \x7d",
       " ",
       "+func newFunction() \x7b",
       "+\tfmt.Println(\x22New\x22)",
       "+\x7d",
       "+",
       " func oldFunction() \x7b",
       " \tfmt.Println(\x22Old\x22)",
       " \x7d"])) "test.go" 13 = true := by decide

example :
    GoCov.isLineAdded (some (GoCov.parseUnifiedDiff
      ["+++ b/test.go", "@@ -10,6 +10,9 @@", "+a", "+b", "+c"])) "test.go" 10 = true := by decide

example : GoCov.hunkNewStart "@@ -10,6 +10,9 @@" = some 10 := by decide
example : GoCov.hunkNewStart "@@ -a,b +c,d @@" = none := by decide
